import Mathlib

/-!
Shallow embedding of the rodrigoo-r/path utility (src/path.h and
src/library.h): a cross-platform path library providing
- get_file_name  : extract the last path segment by a left-to-right scan,
- get_real_path  : resolve a path to its absolute canonical form via the
  platform primitive (realpath on POSIX, GetFullPathNameA on Windows),
  in an allocating variant and buffer-writing variants,
- path_join      : concatenate two paths with the platform separator and
  normalize the result through get_real_path.

C strings that may be NULL are embedded as `Option (List Char)`; a present
string is its list of characters. The OS resolution primitives are
environment parameters (they are not code of this repository); the string
builder collaborator (fluent-libc string_builder.h, also not under src/) is
modelled from the spec's contract for it.
-/

namespace PathLib

/-- A present C string: its list of characters (no interior NUL assumed). -/
abbrev CStr := List Char

/-- Modelled from the spec: the external String Assembler collaborator
(string_builder.h, not part of src/). Per spec section 6 the core depends
only on initialize / append(string) / append(char) / reset /
finalize-without-copy / destroy and never on capacity or growth strategy,
so the model keeps only the accumulated content. -/
structure string_builder_t where
  data : CStr
deriving DecidableEq

/-- Modelled from the spec: initialize(capacity_hint, growth_factor) yields
an empty assembler; the capacity hint (and the growth factor, dropped here)
never affect the accumulated content. -/
def init_string_builder (_capacity : Nat) : string_builder_t := ⟨[]⟩

/-- Modelled from the spec: reset discards the current content (capacity is
retained, which the model does not track). -/
def reset_string_builder (_sb : string_builder_t) : string_builder_t := ⟨[]⟩

/-- Modelled from the spec: append a single character. -/
def write_char_string_builder (sb : string_builder_t) (c : Char) : string_builder_t :=
  ⟨sb.data ++ [c]⟩

/-- Modelled from the spec: append a whole string. -/
def write_string_builder (sb : string_builder_t) (s : CStr) : string_builder_t :=
  ⟨sb.data ++ s⟩

/-- Modelled from the spec: finalize-without-copy hands the accumulated
content (possibly empty) to the caller as an owned, present string. -/
def collect_string_builder_no_copy (sb : string_builder_t) : CStr := sb.data

/-- The scanning loop of get_file_name (src/path.h lines 95-108): on the
separator reset the builder, on any other character append it. -/
def get_file_name_loop (sep : Char) : CStr → string_builder_t → string_builder_t
  | [], sb => sb
  | c :: rest, sb =>
    if c = sep then get_file_name_loop sep rest (reset_string_builder sb)
    else get_file_name_loop sep rest (write_char_string_builder sb c)

/-- get_file_name (src/path.h lines 82-112), parameterized by the
compile-time PATH_SEPARATOR: reject NULL or empty input, scan, and collect
the builder content without copy. -/
def get_file_name (sep : Char) (path : Option CStr) : Option CStr :=
  match path with
  | none => none
  | some p =>
    if p = [] then none
    else
      some (collect_string_builder_no_copy
        (get_file_name_loop sep p (init_string_builder 64)))

/-- Modelled from the spec: the POSIX OS resolver realpath(3) as an abstract
environment; `none` models a NULL return (resolution failure). The source
never inspects the resolver's output, it only passes it on. -/
structure PosixEnv where
  realpath : CStr → Option CStr

/-- get_real_path, allocating variant, POSIX branch (src/path.h lines
127-144; identical in src/library.h lines 43-60): reject NULL/empty input,
then return realpath's result, NULL exactly when realpath fails. -/
def get_real_path (env : PosixEnv) (path : Option CStr) : Option CStr :=
  match path with
  | none => none
  | some p =>
    if p = [] then none
    else
      match env.realpath p with
      | none => none
      | some r => some r

/-- get_real_path(path, buffer, buffer_size), POSIX branch (src/library.h
lines 94-111; get_real_path_buff in src/path.h lines 177-194 is the same
code without the size parameter): realpath writes into the caller buffer and
the size parameter is never read on this branch. The result is the success
flag together with the buffer content after the call. -/
def get_real_path_buff_posix (env : PosixEnv) (path : Option CStr)
    (buffer : CStr) (_buffer_size : Nat) : Bool × CStr :=
  match path with
  | none => (false, buffer)
  | some p =>
    if p = [] then (false, buffer)
    else
      match env.realpath p with
      | none => (false, buffer)
      | some r => (true, r)

/-- Modelled from the spec: the Windows full-path expansion as an abstract
environment: for each path, either its resolved full path or failure. -/
structure WinEnv where
  fullPath : CStr → Option CStr

/-- Modelled from the spec: GetFullPathNameA(path, nBufferLength, buffer)
returns 0 on failure; when the resolved string together with its NUL
terminator fits the capacity (length strictly below nBufferLength) it is
written to the buffer and its length is returned; otherwise the buffer is
left alone and the required size including the terminator (length + 1) is
returned. The pair is the returned length and the buffer after the call. -/
def GetFullPathNameA (env : WinEnv) (path : CStr) (nBufferLength : Nat)
    (buffer : CStr) : Nat × CStr :=
  match env.fullPath path with
  | none => (0, buffer)
  | some r =>
    if r.length < nBufferLength then (r.length, r)
    else (r.length + 1, buffer)

/-- get_real_path(path, buffer, buffer_size), Windows branch (src/library.h
lines 112-115): one expansion call with the caller-supplied capacity;
success is `len > 0 && len < buffer_size`. -/
def get_real_path_win (env : WinEnv) (path : Option CStr)
    (buffer : CStr) (buffer_size : Nat) : Bool × CStr :=
  match path with
  | none => (false, buffer)
  | some p =>
    if p = [] then (false, buffer)
    else
      let res := GetFullPathNameA env p buffer_size buffer
      (decide (0 < res.1 ∧ res.1 < buffer_size), res.2)

/-- The capacity actually used by get_real_path_buff's Windows branch:
src/path.h line 196 computes `sizeof(buffer)` where `buffer` is a
`char *const` parameter, i.e. the size of the pointer itself (8 on the
64-bit targets), not the pointed-to buffer's size. -/
def sizeof_char_ptr : Nat := 8

/-- get_real_path_buff, Windows branch (src/path.h lines 195-199): like the
size-parameterized variant but with the capacity taken as sizeof(buffer),
which is the pointer size. -/
def get_real_path_buff_win (env : WinEnv) (path : Option CStr)
    (buffer : CStr) : Bool × CStr :=
  match path with
  | none => (false, buffer)
  | some p =>
    if p = [] then (false, buffer)
    else
      let res := GetFullPathNameA env p sizeof_char_ptr buffer
      (decide (0 < res.1 ∧ res.1 < sizeof_char_ptr), res.2)

/-- path_join (src/path.h lines 215-241; identical in src/library.h lines
131-157), POSIX build, parameterized by PATH_SEPARATOR: reject NULL/empty
arguments, build `path1 + separator + path2` with the assembler, collect it
without copy, and normalize through get_real_path. -/
def path_join (env : PosixEnv) (sep : Char) (path1 path2 : Option CStr) : Option CStr :=
  match path1, path2 with
  | some p1, some p2 =>
    if p1 = [] ∨ p2 = [] then none
    else
      let sb := init_string_builder 256
      let sb := write_string_builder sb p1
      let sb := write_char_string_builder sb sep
      let sb := write_string_builder sb p2
      let joined_path := collect_string_builder_no_copy sb
      get_real_path env (some joined_path)
  | _, _ => none

/-- Operations performed on the intermediate assembler of path_join, in the
order the source performs them. -/
inductive SbEvent where
  | init
  | writeStr
  | writeChar
  | collect
  | destroy
deriving DecidableEq

/-- path_join with its assembler operations logged in source order
(src/path.h lines 222-240): init, two string writes around one char write,
collect, then — after get_real_path, on the single return path that follows
the assembler's creation, whether or not resolution succeeded —
destroy_string_builder. -/
def path_join_traced (env : PosixEnv) (sep : Char) (path1 path2 : Option CStr) :
    Option CStr × List SbEvent :=
  match path1, path2 with
  | some p1, some p2 =>
    if p1 = [] ∨ p2 = [] then (none, [])
    else
      let sb := init_string_builder 256
      let tr := [SbEvent.init]
      let sb := write_string_builder sb p1
      let tr := tr ++ [SbEvent.writeStr]
      let sb := write_char_string_builder sb sep
      let tr := tr ++ [SbEvent.writeChar]
      let sb := write_string_builder sb p2
      let tr := tr ++ [SbEvent.writeStr]
      let joined_path := collect_string_builder_no_copy sb
      let tr := tr ++ [SbEvent.collect]
      let normalized_path := get_real_path env (some joined_path)
      let tr := tr ++ [SbEvent.destroy]
      (normalized_path, tr)
  | _, _ => (none, [])

/-- A POSIX path is absolute when it starts with the separator. -/
def isAbsolute (sep : Char) (p : CStr) : Bool :=
  match p with
  | [] => false
  | c :: _ => c = sep

/-- Witness environment: a resolver sending every path to "/r". -/
def envR : PosixEnv := ⟨fun _ => some ['/', 'r']⟩

/-- Witness environment for the Windows branch: every path expands to
"C:\r" (length 4). -/
def envWn : WinEnv := ⟨fun _ => some ['C', ':', '\\', 'r']⟩

/-- Counterexample environment: a resolver sending every path to "/"
(as realpath legitimately does when the final component is a symlink to
the root, or resolves away through ".." segments). -/
def envCE : PosixEnv := ⟨fun _ => some ['/']⟩

/-- Witness environment preserving file names: every non-empty path p
resolves to "/" ++ p, whose final segment equals p's. -/
def envPres : PosixEnv := ⟨fun l => if l = [] then none else some ('/' :: l)⟩

theorem get_file_name_loop_append_no_sep (sep : Char) (l : CStr) :
    ∀ sb : string_builder_t, sep ∉ l →
      get_file_name_loop sep l sb = ⟨sb.data ++ l⟩ := by
  induction l with
  | nil => intro sb _; simp [get_file_name_loop]
  | cons c rest ih =>
    intro sb h
    have hc : ¬ c = sep := fun hc => h (hc ▸ List.mem_cons_self c rest)
    simp only [get_file_name_loop, if_neg hc]
    rw [ih _ (fun hm => h (List.mem_cons_of_mem c hm))]
    simp [write_char_string_builder]

theorem get_file_name_loop_after_last (sep : Char) (suf : CStr) (hs : sep ∉ suf) :
    ∀ (pre : CStr) (sb : string_builder_t),
      get_file_name_loop sep (pre ++ sep :: suf) sb = ⟨suf⟩ := by
  intro pre
  induction pre with
  | nil =>
    intro sb
    simp only [List.nil_append, get_file_name_loop, if_pos rfl]
    rw [get_file_name_loop_append_no_sep sep suf _ hs]
    simp [reset_string_builder]
  | cons c pre ih =>
    intro sb
    simp only [List.cons_append, get_file_name_loop]
    by_cases hc : c = sep
    · rw [if_pos hc]; exact ih _
    · rw [if_neg hc]; exact ih _

theorem get_file_name_loop_no_sep_mem (sep : Char) (l : CStr) :
    ∀ sb : string_builder_t, sep ∉ sb.data →
      sep ∉ (get_file_name_loop sep l sb).data := by
  induction l with
  | nil => intro sb h; simpa [get_file_name_loop] using h
  | cons c rest ih =>
    intro sb h
    simp only [get_file_name_loop]
    by_cases hc : c = sep
    · rw [if_pos hc]
      exact ih _ (by simp [reset_string_builder])
    · rw [if_neg hc]
      refine ih _ ?_
      simp only [write_char_string_builder, List.mem_append, List.mem_singleton]
      rintro (hm | hm)
      · exact h hm
      · exact hc hm.symm

theorem get_file_name_eq_some_no_sep (sep : Char) (path : Option CStr) (r : CStr)
    (h : get_file_name sep path = some r) : sep ∉ r := by
  match path with
  | none => simp [get_file_name] at h
  | some p =>
    by_cases hp : p = []
    · subst hp; simp [get_file_name] at h
    · simp only [get_file_name, if_neg hp, Option.some.injEq] at h
      subst h
      exact get_file_name_loop_no_sep_mem sep p _ (by simp [init_string_builder])

theorem get_file_name_cons_sep (sep : Char) (p : CStr) (hp : p ≠ []) :
    get_file_name sep (some (sep :: p)) = get_file_name sep (some p) := by
  simp only [get_file_name, if_neg hp, if_neg (List.cons_ne_nil sep p)]
  simp only [get_file_name_loop, if_pos rfl]
  rfl

/-- Claim C1: for every non-empty path p, get_file_name returns exactly the
characters that follow the last occurrence of the platform separator: the
whole of p when p contains no separator, and the suffix suf when
p = pre ++ sep :: suf with no separator occurring in suf. -/
theorem get_file_name_returns_after_last_separator (sep : Char) (p : CStr)
    (hp : p ≠ []) :
    (sep ∉ p → get_file_name sep (some p) = some p) ∧
    (∀ pre suf, p = pre ++ sep :: suf → sep ∉ suf →
      get_file_name sep (some p) = some suf) := by
  constructor
  · intro h
    simp only [get_file_name, if_neg hp]
    rw [get_file_name_loop_append_no_sep sep p _ h]
    simp [collect_string_builder_no_copy, init_string_builder]
  · intro pre suf hdec hs
    subst hdec
    simp only [get_file_name, if_neg hp]
    rw [get_file_name_loop_after_last sep suf hs pre _]
    rfl

/-- Witness for C1 at the spec's examples: file_name "a/b/c" is "c" and
file_name "singlename" is itself (abbreviated to "s"). -/
theorem get_file_name_returns_after_last_separator_witness :
    get_file_name '/' (some ['a', '/', 'b', '/', 'c']) = some ['c'] ∧
    get_file_name '/' (some ['s']) = some ['s'] :=
  ⟨(get_file_name_returns_after_last_separator '/' ['a', '/', 'b', '/', 'c']
      (by decide)).2 ['a', '/', 'b'] ['c'] (by decide) (by decide),
   (get_file_name_returns_after_last_separator '/' ['s'] (by decide)).1
      (by decide)⟩

/-- Claim C2: a path ending in the platform separator yields a present,
owned empty string from get_file_name, not absence. -/
theorem get_file_name_trailing_separator (sep : Char) (q : CStr) :
    get_file_name sep (some (q ++ [sep])) = some [] := by
  simp only [get_file_name, if_neg (by simp : ¬ q ++ [sep] = [])]
  rw [show q ++ [sep] = q ++ sep :: [] from rfl,
    get_file_name_loop_after_last sep [] (by simp) q _]
  rfl

/-- Claim C3: path_join on non-empty arguments is exactly get_real_path
applied to path1 ++ separator ++ path2, absence included. -/
theorem path_join_eq_resolve_concat (env : PosixEnv) (sep : Char)
    (p1 p2 : CStr) (h1 : p1 ≠ []) (h2 : p2 ≠ []) :
    path_join env sep (some p1) (some p2) =
      get_real_path env (some (p1 ++ sep :: p2)) := by
  simp only [path_join, if_neg (by simp [h1, h2] : ¬ (p1 = [] ∨ p2 = []))]
  simp [init_string_builder, write_string_builder, write_char_string_builder,
    collect_string_builder_no_copy]

/-- Witness for C3 at path1 = "a", path2 = "b" under the constant resolver. -/
theorem path_join_eq_resolve_concat_witness :
    path_join envR '/' (some ['a']) (some ['b']) =
      get_real_path envR (some (['a'] ++ '/' :: ['b'])) :=
  path_join_eq_resolve_concat envR '/' ['a'] ['b'] (by decide) (by decide)

/-- Claim C4: a NULL or empty argument makes every operation return its
failure value (absence or false, with the buffer untouched) uniformly for
every environment — the result does not depend on the OS environment at
all, which is how the embedding expresses that no OS call is consulted. -/
theorem null_or_empty_rejected_before_os (envP : PosixEnv) (envW : WinEnv)
    (sep : Char) (buffer : CStr) (buffer_size : Nat) (q : CStr) :
    get_real_path envP none = none ∧
    get_real_path envP (some []) = none ∧
    get_real_path_buff_posix envP none buffer buffer_size = (false, buffer) ∧
    get_real_path_buff_posix envP (some []) buffer buffer_size = (false, buffer) ∧
    get_real_path_win envW none buffer buffer_size = (false, buffer) ∧
    get_real_path_win envW (some []) buffer buffer_size = (false, buffer) ∧
    get_real_path_buff_win envW none buffer = (false, buffer) ∧
    get_real_path_buff_win envW (some []) buffer = (false, buffer) ∧
    get_file_name sep none = none ∧
    get_file_name sep (some []) = none ∧
    path_join envP sep none (some q) = none ∧
    path_join envP sep (some q) none = none ∧
    path_join envP sep none none = none ∧
    path_join envP sep (some []) (some q) = none ∧
    path_join envP sep (some q) (some []) = none := by
  refine ⟨rfl, rfl, rfl, rfl, rfl, rfl, rfl, rfl, rfl, rfl, rfl, rfl, rfl,
    rfl, ?_⟩
  simp [path_join]

/-- Claim C10: whenever get_file_name returns a present result, that result
contains no occurrence of the platform separator. -/
theorem get_file_name_result_no_separator (sep : Char) (path : Option CStr)
    (r : CStr) (h : get_file_name sep path = some r) : sep ∉ r :=
  get_file_name_eq_some_no_sep sep path r h

/-- Witness for C10 at path "a/b". -/
theorem get_file_name_result_no_separator_witness :
    get_file_name '/' (some ['a', '/', 'b']) = some ['b'] ∧
    '/' ∉ (['b'] : CStr) :=
  ⟨by decide,
   get_file_name_result_no_separator '/' (some ['a', '/', 'b']) ['b']
     (by decide)⟩

/-- Claim C5: on Windows-like builds, both buffer-writing variants succeed
exactly when the length returned by the full-path expansion is non-zero and
strictly below the capacity used (the explicit buffer_size for the
size-parameterized overload; sizeof(char*) for get_real_path_buff), and a
buffer exactly one byte too small for the resolved result — capacity
r.length, where r.length + 1 bytes including the terminator are needed —
fails. -/
theorem win_buffer_resolution_success_iff (env : WinEnv) (p buffer : CStr)
    (buffer_size : Nat) (r : CStr) (hp : p ≠ [])
    (hr : env.fullPath p = some r) :
    ((get_real_path_win env (some p) buffer buffer_size).1 = true ↔
      (0 < (GetFullPathNameA env p buffer_size buffer).1 ∧
        (GetFullPathNameA env p buffer_size buffer).1 < buffer_size)) ∧
    ((get_real_path_buff_win env (some p) buffer).1 = true ↔
      (0 < (GetFullPathNameA env p sizeof_char_ptr buffer).1 ∧
        (GetFullPathNameA env p sizeof_char_ptr buffer).1 < sizeof_char_ptr)) ∧
    (get_real_path_win env (some p) buffer r.length).1 = false := by
  refine ⟨?_, ?_, ?_⟩
  · simp [get_real_path_win, if_neg hp]
  · simp [get_real_path_buff_win, if_neg hp]
  · simp only [get_real_path_win, if_neg hp, GetFullPathNameA, hr,
      if_neg (lt_irrefl r.length)]
    simp [decide_eq_false_iff_not]

/-- Witness for C5 under the constant Windows resolver (resolved length 4),
path "a", empty buffer, capacity 6. -/
theorem win_buffer_resolution_success_iff_witness :
    ((get_real_path_win envWn (some ['a']) [] 6).1 = true ↔
      (0 < (GetFullPathNameA envWn ['a'] 6 []).1 ∧
        (GetFullPathNameA envWn ['a'] 6 []).1 < 6)) ∧
    ((get_real_path_buff_win envWn (some ['a']) []).1 = true ↔
      (0 < (GetFullPathNameA envWn ['a'] sizeof_char_ptr []).1 ∧
        (GetFullPathNameA envWn ['a'] sizeof_char_ptr []).1 < sizeof_char_ptr)) ∧
    (get_real_path_win envWn (some ['a']) []
      (['C', ':', '\\', 'r'] : CStr).length).1 = false :=
  win_buffer_resolution_success_iff envWn ['a'] [] 6 ['C', ':', '\\', 'r']
    (by decide) (by decide)

/-- Claim C6: under the OS resolver guarantees stated by the spec (every
resolver output is absolute, and the resolver maps its own outputs to
themselves), get_real_path on a non-empty path that the resolver accepts
yields a present absolute result, and re-resolving that result changes
nothing: get_real_path of the output equals the output itself. -/
theorem get_real_path_absolute_and_idempotent (env : PosixEnv) (sep : Char)
    (habs : ∀ p r, env.realpath p = some r → isAbsolute sep r = true)
    (hidem : ∀ p r, env.realpath p = some r → env.realpath r = some r)
    (p r : CStr) (hp : p ≠ []) (hr : env.realpath p = some r) :
    get_real_path env (some p) = some r ∧
    isAbsolute sep r = true ∧
    get_real_path env (get_real_path env (some p)) =
      get_real_path env (some p) := by
  have h1 : get_real_path env (some p) = some r := by
    simp [get_real_path, if_neg hp, hr]
  have h2 : isAbsolute sep r = true := habs p r hr
  have hrne : r ≠ [] := by
    intro h; rw [h] at h2; simp [isAbsolute] at h2
  refine ⟨h1, h2, ?_⟩
  rw [h1]
  simp [get_real_path, if_neg hrne, hidem p r hr]

/-- Witness for C6 under the constant resolver to "/r" at path "a". -/
theorem get_real_path_absolute_and_idempotent_witness :
    get_real_path envR (some ['a']) = some ['/', 'r'] ∧
    isAbsolute '/' ['/', 'r'] = true ∧
    get_real_path envR (get_real_path envR (some ['a'])) =
      get_real_path envR (some ['a']) :=
  get_real_path_absolute_and_idempotent envR '/'
    (fun p r h => by
      injection h with h
      subst h
      rfl)
    (fun p r h => by
      injection h with h
      subst h
      rfl)
    ['a'] ['/', 'r'] (by decide) rfl

/-- Counterexample to claim C7 as stated: the OS resolver may change the
final segment of the path it resolves (for instance when that segment is a
symbolic link, or a ".." component). With a resolver sending every path to
"/", the file name of F = "/a/b" is "b" and join("/d", "b") succeeds with
result "/", but the file name of that result is the empty string, not "b":
the round-trip fails. -/
theorem file_name_join_roundtrip_counterexample :
    get_file_name '/' (some ['/', 'a', '/', 'b']) = some ['b'] ∧
    path_join envCE '/' (some ['/', 'd']) (some ['b']) = some ['/'] ∧
    get_file_name '/' (path_join envCE '/' (some ['/', 'd']) (some ['b'])) =
      some [] ∧
    some ([] : CStr) ≠ some ['b'] := by
  refine ⟨by decide, by decide, by decide, by decide⟩

/-- Claim C7, amended: the round-trip file_name(join(D, file_name(F))) =
file_name(F) holds for every D on which the join succeeds, provided the
resolver preserves the file-name component of every path it resolves
(file_name of the resolver's output equals file_name of its input). -/
theorem file_name_join_roundtrip_of_preserving (env : PosixEnv) (sep : Char)
    (F D n r : CStr)
    (hpres : ∀ p q, env.realpath p = some q →
      get_file_name sep (some q) = get_file_name sep (some p))
    (hn : get_file_name sep (some F) = some n)
    (hjoin : path_join env sep (some D) (some n) = some r) :
    get_file_name sep (some r) = some n := by
  have hns : sep ∉ n := get_file_name_eq_some_no_sep sep (some F) n hn
  by_cases hde : D = [] ∨ n = []
  · rw [path_join, if_pos hde] at hjoin
    exact absurd hjoin (by simp)
  · rw [path_join, if_neg hde] at hjoin
    simp only [init_string_builder, write_string_builder,
      write_char_string_builder, collect_string_builder_no_copy,
      List.nil_append, List.append_assoc, List.singleton_append] at hjoin
    have hne : ¬ (D ++ sep :: n = []) := by simp
    rw [get_real_path, if_neg hne] at hjoin
    have hrp : env.realpath (D ++ sep :: n) = some r := by
      cases h : env.realpath (D ++ sep :: n) with
      | none =>
        rw [h] at hjoin
        exact absurd hjoin (by simp)
      | some q =>
        rw [h] at hjoin
        simp at hjoin
        subst hjoin
        rfl
    rw [hpres _ _ hrp]
    simp only [get_file_name, if_neg hne]
    rw [get_file_name_loop_after_last sep n hns D _]
    rfl

/-- Witness for the amended C7 under the file-name-preserving resolver that
prepends "/": F = "/a/b" has file name "b", join("/d", "b") resolves to
"//d/b", whose file name is again "b". -/
theorem file_name_join_roundtrip_of_preserving_witness :
    get_file_name '/' (some ['/', 'a', '/', 'b']) = some ['b'] ∧
    path_join envPres '/' (some ['/', 'd']) (some ['b']) =
      some ['/', '/', 'd', '/', 'b'] ∧
    get_file_name '/' (some ['/', '/', 'd', '/', 'b']) = some ['b'] :=
  ⟨by decide, by decide,
   file_name_join_roundtrip_of_preserving envPres '/'
     ['/', 'a', '/', 'b'] ['/', 'd'] ['b'] ['/', '/', 'd', '/', 'b']
     (fun p q h => by
       by_cases hp : p = []
       · subst hp
         simp [envPres] at h
       · simp only [envPres, if_neg hp, Option.some.injEq] at h
         subst h
         exact get_file_name_cons_sep '/' p hp)
     (by decide) (by decide)⟩

/-- Claim C8: the POSIX buffer-writing resolver never consults the
caller-supplied capacity: for any two capacities the result coincides. -/
theorem posix_buffer_resolver_ignores_capacity (env : PosixEnv)
    (path : Option CStr) (buffer : CStr) (s1 s2 : Nat) :
    (get_real_path_buff_posix env path buffer s1).1 =
      (get_real_path_buff_posix env path buffer s2).1 := rfl

/-- Claim C9: the traced path_join computes the same result as path_join,
and whenever its control flow reaches the assembler (the init event occurs)
the destroy event is the last assembler operation before returning — for
every environment, i.e. whether the resolution succeeds or fails. -/
theorem path_join_releases_assembler (env : PosixEnv) (sep : Char)
    (p1 p2 : Option CStr) :
    (path_join_traced env sep p1 p2).1 = path_join env sep p1 p2 ∧
    (SbEvent.init ∈ (path_join_traced env sep p1 p2).2 →
      (path_join_traced env sep p1 p2).2.getLast? = some SbEvent.destroy) := by
  match p1, p2 with
  | none, _ => exact ⟨rfl, by intro h; simp [path_join_traced] at h⟩
  | some q1, none => exact ⟨rfl, by intro h; simp [path_join_traced] at h⟩
  | some q1, some q2 =>
    by_cases he : q1 = [] ∨ q2 = []
    · refine ⟨?_, ?_⟩
      · simp [path_join_traced, path_join, if_pos he]
      · intro h
        rw [path_join_traced, if_pos he] at h
        simp at h
    · refine ⟨?_, ?_⟩
      · simp [path_join_traced, path_join, if_neg he]
      · intro _
        rw [path_join_traced, if_neg he]
        rfl

/-- Witness for C9 at "a", "b" under the constant resolver: the scan reaches
the assembler and the trace ends with destroy. -/
theorem path_join_releases_assembler_witness :
    SbEvent.init ∈ (path_join_traced envR '/' (some ['a']) (some ['b'])).2 ∧
    (path_join_traced envR '/' (some ['a']) (some ['b'])).2.getLast? =
      some SbEvent.destroy :=
  ⟨by decide,
   (path_join_releases_assembler envR '/' (some ['a']) (some ['b'])).2
     (by decide)⟩

end PathLib
